import Mathlib

/-!
Verification of the `openapi-to-mcp` schema-conversion and operation-mapping
core against its design specification.

The Python source is shallowly embedded: JSON-compatible values become the
inductive type `Json`; Python dictionaries become association lists with
string keys (the input domain is a parsed OpenAPI document, whose mappings
are keyed by strings); in-place mutation becomes explicit state passing; the
reference handler's mutable visited-reference set is threaded as a list;
recursion through `$ref` resolution is given a fuel parameter (`none` means
the fuel ran out, a modelling artifact only — every theorem is stated at and
proved for sufficient fuel).  Python exceptions that the code catches are
modelled with `Except Unit`.  Numbers are modelled as integers: the code
under scrutiny only ever copies numeric values verbatim, so the numeric
carrier does not affect any statement proved here.
-/

namespace OpenApiToMcp

/-- A JSON-compatible value, as produced by parsing an OpenAPI document.
Object fields are kept as an ordered association list, mirroring the
insertion order of a Python `dict`. -/
inductive Json where
  | null : Json
  | bool (b : Bool) : Json
  | num (n : Int) : Json
  | str (s : String) : Json
  | arr (elems : List Json) : Json
  | obj (fields : List (String × Json)) : Json
deriving Repr

/-- The field list of a JSON object / Python dict. -/
abbrev Fields := List (String × Json)

mutual

/-- Decidable equality of JSON values (used both for the Python `==` on
hashable values and for `decide`-style evaluation in witnesses). -/
def Json.decEq : (a b : Json) → Decidable (a = b)
  | .null, .null => .isTrue rfl
  | .bool a, .bool b =>
    if h : a = b then .isTrue (h ▸ rfl)
    else .isFalse fun he => h (Json.bool.inj he)
  | .num a, .num b =>
    if h : a = b then .isTrue (h ▸ rfl)
    else .isFalse fun he => h (Json.num.inj he)
  | .str a, .str b =>
    if h : a = b then .isTrue (h ▸ rfl)
    else .isFalse fun he => h (Json.str.inj he)
  | .arr a, .arr b =>
    match Json.decEqList a b with
    | .isTrue h => .isTrue (h ▸ rfl)
    | .isFalse h => .isFalse fun he => h (Json.arr.inj he)
  | .obj a, .obj b =>
    match Json.decEqFields a b with
    | .isTrue h => .isTrue (h ▸ rfl)
    | .isFalse h => .isFalse fun he => h (Json.obj.inj he)
  | .null, .bool _ => .isFalse fun h => Json.noConfusion h
  | .null, .num _ => .isFalse fun h => Json.noConfusion h
  | .null, .str _ => .isFalse fun h => Json.noConfusion h
  | .null, .arr _ => .isFalse fun h => Json.noConfusion h
  | .null, .obj _ => .isFalse fun h => Json.noConfusion h
  | .bool _, .null => .isFalse fun h => Json.noConfusion h
  | .bool _, .num _ => .isFalse fun h => Json.noConfusion h
  | .bool _, .str _ => .isFalse fun h => Json.noConfusion h
  | .bool _, .arr _ => .isFalse fun h => Json.noConfusion h
  | .bool _, .obj _ => .isFalse fun h => Json.noConfusion h
  | .num _, .null => .isFalse fun h => Json.noConfusion h
  | .num _, .bool _ => .isFalse fun h => Json.noConfusion h
  | .num _, .str _ => .isFalse fun h => Json.noConfusion h
  | .num _, .arr _ => .isFalse fun h => Json.noConfusion h
  | .num _, .obj _ => .isFalse fun h => Json.noConfusion h
  | .str _, .null => .isFalse fun h => Json.noConfusion h
  | .str _, .bool _ => .isFalse fun h => Json.noConfusion h
  | .str _, .num _ => .isFalse fun h => Json.noConfusion h
  | .str _, .arr _ => .isFalse fun h => Json.noConfusion h
  | .str _, .obj _ => .isFalse fun h => Json.noConfusion h
  | .arr _, .null => .isFalse fun h => Json.noConfusion h
  | .arr _, .bool _ => .isFalse fun h => Json.noConfusion h
  | .arr _, .num _ => .isFalse fun h => Json.noConfusion h
  | .arr _, .str _ => .isFalse fun h => Json.noConfusion h
  | .arr _, .obj _ => .isFalse fun h => Json.noConfusion h
  | .obj _, .null => .isFalse fun h => Json.noConfusion h
  | .obj _, .bool _ => .isFalse fun h => Json.noConfusion h
  | .obj _, .num _ => .isFalse fun h => Json.noConfusion h
  | .obj _, .str _ => .isFalse fun h => Json.noConfusion h
  | .obj _, .arr _ => .isFalse fun h => Json.noConfusion h

/-- Decidable equality of JSON arrays. -/
def Json.decEqList : (a b : List Json) → Decidable (a = b)
  | [], [] => .isTrue rfl
  | [], _ :: _ => .isFalse fun h => List.noConfusion h
  | _ :: _, [] => .isFalse fun h => List.noConfusion h
  | x :: xs, y :: ys =>
    match Json.decEq x y with
    | .isTrue h1 =>
      match Json.decEqList xs ys with
      | .isTrue h2 => .isTrue (h1 ▸ h2 ▸ rfl)
      | .isFalse h2 => .isFalse fun he => h2 (List.cons.inj he).2
    | .isFalse h1 => .isFalse fun he => h1 (List.cons.inj he).1

/-- Decidable equality of JSON object field lists. -/
def Json.decEqFields : (a b : List (String × Json)) → Decidable (a = b)
  | [], [] => .isTrue rfl
  | [], _ :: _ => .isFalse fun h => List.noConfusion h
  | _ :: _, [] => .isFalse fun h => List.noConfusion h
  | (k, x) :: xs, (k', y) :: ys =>
    if hk : k = k' then
      match Json.decEq x y with
      | .isTrue h1 =>
        match Json.decEqFields xs ys with
        | .isTrue h2 => .isTrue (hk ▸ h1 ▸ h2 ▸ rfl)
        | .isFalse h2 => .isFalse fun he => h2 (List.cons.inj he).2
      | .isFalse h1 =>
        .isFalse fun he => h1 (congrArg Prod.snd (List.cons.inj he).1)
    else .isFalse fun he => hk (congrArg Prod.fst (List.cons.inj he).1)

end

instance : DecidableEq Json := Json.decEq

/-- Decidable equality for `Except` results, so that closed statements
about fallible operations can be settled by evaluation. -/
def exceptDecEq {ε α : Type} [DecidableEq ε] [DecidableEq α] :
    (a b : Except ε α) → Decidable (a = b)
  | .ok v1, .ok v2 =>
    if hv : v1 = v2 then .isTrue (by rw [hv])
    else .isFalse fun he => hv (by cases he; rfl)
  | .error e1, .error e2 =>
    if hv : e1 = e2 then .isTrue (by rw [hv])
    else .isFalse fun he => hv (by cases he; rfl)
  | .ok _, .error _ => .isFalse fun h => Except.noConfusion h
  | .error _, .ok _ => .isFalse fun h => Except.noConfusion h

instance {ε α : Type} [DecidableEq ε] [DecidableEq α] :
    DecidableEq (Except ε α) := exceptDecEq

namespace Json

/-- Python truthiness of a JSON value (`bool(x)`). -/
def truthy : Json → Bool
  | .null => false
  | .bool b => b
  | .num n => n != 0
  | .str s => s != ""
  | .arr l => !l.isEmpty
  | .obj l => !l.isEmpty

/-- Is this value a JSON object (a Python `dict`)? -/
def isObj : Json → Bool
  | .obj _ => true
  | _ => false

/-- Is this value a JSON array (a Python `list`)? -/
def isArr : Json → Bool
  | .arr _ => true
  | _ => false

/-- Is this value a string? -/
def isStr : Json → Bool
  | .str _ => true
  | _ => false

/-- Is this value a boolean (`isinstance(v, bool)`)? -/
def isBool : Json → Bool
  | .bool _ => true
  | _ => false

/-- Is this value a number (`isinstance(v, (int, float))` after the
boolean case has been peeled off)? -/
def isNum : Json → Bool
  | .num _ => true
  | _ => false

/-- The fields of an object, or `[]` for any other value. -/
def fieldsOf : Json → Fields
  | .obj fs => fs
  | _ => []

end Json

/-- Dictionary lookup (`d[k]` / `d.get(k)` when the key is present):
value of the first field named `k`. -/
def dget (fs : Fields) (k : String) : Option Json :=
  match fs with
  | [] => none
  | (k₀, v₀) :: rest => if k₀ = k then some v₀ else dget rest k

/-- Dictionary lookup with default (`d.get(k, dflt)`). -/
def dgetD (fs : Fields) (k : String) (dflt : Json) : Json :=
  (dget fs k).getD dflt

/-- Key membership (`k in d`). -/
def dmem (fs : Fields) (k : String) : Bool :=
  (dget fs k).isSome

/-- Dictionary assignment (`d[k] = v`): replaces the value in place if the
key exists (keeping its position, as a Python `dict` does), else appends. -/
def dset (fs : Fields) (k : String) (v : Json) : Fields :=
  match fs with
  | [] => [(k, v)]
  | (k₀, v₀) :: rest =>
    if k₀ = k then (k₀, v) :: rest else (k₀, v₀) :: dset rest k v

/-- Dictionary update (`d.update(other)`): assigns every field of `other`
in order. -/
def dupdate (fs other : Fields) : Fields :=
  other.foldl (fun acc kv => dset acc kv.1 kv.2) fs

/-- Key removal (`d.pop(k, None)`); a Python dict holds a key at most once,
so removing every occurrence from the association list models it. -/
def derase (fs : Fields) (k : String) : Fields :=
  match fs with
  | [] => []
  | (k₀, v₀) :: rest =>
    if k₀ = k then derase rest k else (k₀, v₀) :: derase rest k

/-- `spec.get(k, dflt)` on an arbitrary JSON value known to be a dict at the
call sites in the source; non-objects yield the default. -/
def jgetD (j : Json) (k : String) (dflt : Json) : Json :=
  dgetD j.fieldsOf k dflt

section DictLemmas

theorem dget_dset_self (fs : Fields) (k : String) (v : Json) :
    dget (dset fs k v) k = some v := by
  induction fs with
  | nil => simp [dget, dset]
  | cons kv rest ih =>
    by_cases h : kv.1 = k <;> simp [dget, dset, h, ih]

theorem dget_dset_ne (fs : Fields) (k k' : String) (v : Json) (h : k ≠ k') :
    dget (dset fs k v) k' = dget fs k' := by
  induction fs with
  | nil => simp [dget, dset, h]
  | cons kv rest ih =>
    obtain ⟨k₀, v₀⟩ := kv
    by_cases h0 : k₀ = k
    · subst h0
      simp [dget, dset, h, Ne.symm h]
    · by_cases h1 : k₀ = k' <;>
        simp [dget, dset, h0, h1, h, Ne.symm h, ih]

theorem dget_derase_self (fs : Fields) (k : String) :
    dget (derase fs k) k = none := by
  induction fs with
  | nil => simp [derase, dget]
  | cons kv rest ih =>
    obtain ⟨k₀, v₀⟩ := kv
    by_cases h0 : k₀ = k
    · simp [derase, h0, ih]
    · simp [dget, derase, h0, ih]

theorem dget_derase_ne (fs : Fields) (k k' : String) (h : k ≠ k') :
    dget (derase fs k) k' = dget fs k' := by
  induction fs with
  | nil => simp [derase]
  | cons kv rest ih =>
    obtain ⟨k₀, v₀⟩ := kv
    by_cases h0 : k₀ = k
    · subst h0
      simp [dget, derase, h, ih]
    · simp [dget, derase, h0, ih]

theorem dset_eq_self_of_dget (fs : Fields) (k : String) (v : Json)
    (h : dget fs k = some v) : dset fs k v = fs := by
  induction fs with
  | nil => simp [dget] at h
  | cons kv rest ih =>
    obtain ⟨k₀, v₀⟩ := kv
    by_cases h0 : k₀ = k
    · subst h0
      simp [dget] at h
      simp [dset, h]
    · simp [dget, h0] at h
      simp [dset, h0, ih h]

end DictLemmas

/-! ## Tool naming (`openapi_to_mcp/mapping/utils.py`) -/

/-- Python `str.lower()` restricted to the ASCII range (the only range the
mapper's inputs exercise). -/
def asciiLower (s : String) : String :=
  String.mk (s.data.map Char.toLower)

/-- Python `str.upper()` restricted to the ASCII range. -/
def asciiUpper (s : String) : String :=
  String.mk (s.data.map Char.toUpper)

/-- Python `str.split(c)` on a single-character separator: every occurrence
splits, empty pieces are kept, and the empty string yields `[""]`. -/
def splitChar (c : Char) : List Char → List (List Char)
  | [] => [[]]
  | x :: xs =>
    match splitChar c xs with
    | [] => [[]]
    | piece :: rest =>
      if x = c then [] :: piece :: rest else (x :: piece) :: rest

/-- Python `str.strip(c)` on a single-character strip set: removes every
leading and trailing occurrence of `c`. -/
def stripChar (c : Char) (l : List Char) : List Char :=
  ((l.dropWhile (· = c)).reverse.dropWhile (· = c)).reverse

/-- The `[.-] → _` normalization applied to path-parameter names. -/
def cleanParamChars (l : List Char) : List Char :=
  l.map fun c => if c = '.' || c = '-' then '_' else c

/-- Worker for `substPathParams`.  The `Nat` argument is an upper bound on
the number of characters still to scan (every recursive call strictly
shrinks the character list, so a bound equal to the initial length is always
sufficient); it makes the recursion structural so that the definition
evaluates inside the kernel. -/
def substPathParamsAux : Nat → List Char → List Char
  | _, [] => []
  | 0, l => l
  | n + 1, c :: rest =>
    if c = '\x7b' then
      match rest.dropWhile (fun d => d ≠ '\x7d') with
      | [] => c :: rest
      | _ :: rest' =>
        let inner := rest.takeWhile (fun d => d ≠ '\x7d')
        if inner.isEmpty then
          c :: substPathParamsAux n rest
        else
          ("_by_".data ++ cleanParamChars inner) ++ substPathParamsAux n rest'
    else c :: substPathParamsAux n rest

/-- Rewrites each `\x7bparam\x7d` path-parameter placeholder to
`_by_<param>`, scanning left to right exactly as
`re.sub(r"\x5c\x7b([^\x7d]+)\x7d", ...)` does: an opening brace matches up
to the first closing brace provided at least one character lies between. -/
def substPathParams (l : List Char) : List Char :=
  substPathParamsAux l.length l

/-- Characters that survive the `[^a-zA-Z0-9_] → _` replacement. -/
def isToolNameChar (c : Char) : Bool :=
  c.isAlpha || c.isDigit || c = '_'

/-- Collapses each run of underscores to a single underscore
(`re.sub(r"_+", "_", s)`). -/
def collapseUnderscores : List Char → List Char
  | [] => []
  | [c] => [c]
  | c1 :: c2 :: rest =>
    if c1 = '_' && c2 = '_' then collapseUnderscores (c2 :: rest)
    else c1 :: collapseUnderscores (c2 :: rest)

/-- `generate_tool_name` from `openapi_to_mcp/mapping/utils.py`: derives an
MCP tool name from an HTTP method and a URL path. -/
def generateToolName (method path : String) : String :=
  let methodPart := asciiLower method
  let pathChars := path.data
  let pathPart : List Char :=
    if pathChars.contains '?' then
      let pathParts := splitChar '?' pathChars
      let queryPart := (pathParts.drop 1).headD []
      let base := stripChar '/' (pathParts.headD [])
      if queryPart.contains '=' then
        let queryParts := splitChar '=' queryPart
        base ++ "_query_".data ++ (queryParts.drop 1).headD []
      else
        base ++ "_query_".data ++ queryPart
    else stripChar '/' pathChars
  if pathPart.isEmpty then methodPart ++ "_root"
  else
    let p1 := substPathParams pathPart
    let p2 := p1.map fun c => if isToolNameChar c then c else '_'
    let p3 := collapseUnderscores p2
    let p4 := p3.dropWhile (· = '_')
    methodPart ++ "_" ++ String.mk p4

/-! ## Leaf schema handlers
(`openapi_to_mcp/schema/handlers/{string,number,common}_schema.py`) -/

/-- Copies the listed keywords verbatim from the OpenAPI schema to the JSON
schema when present. -/
def copyKeys (keys : List String) (σ out : Fields) : Fields :=
  keys.foldl
    (fun acc k =>
      match dget σ k with
      | some v => dset acc k v
      | none => acc)
    out

/-- `StringSchemaHandler.can_handle`. -/
def stringCanHandle (σ : Fields) : Bool :=
  dgetD σ "type" .null = Json.str "string"

/-- The fixed whitelist of recognized string formats. -/
def knownFormats : List String :=
  ["date", "date-time", "time", "duration", "email", "idn-email",
   "hostname", "idn-hostname", "ipv4", "ipv6", "uri", "uri-reference",
   "iri", "iri-reference", "uuid", "json-pointer", "relative-json-pointer",
   "regex", "byte", "binary", "password"]

/-- `StringSchemaHandler.handle`. -/
def stringHandle (σ out : Fields) : Fields :=
  let out := if dmem out "type" then out else dset out "type" (.str "string")
  let out :=
    match dget σ "enum" with
    | some v => dset out "enum" v
    | none => out
  let out :=
    match dget σ "format" with
    | some (.str fmt) =>
      if fmt ∈ knownFormats then dset out "format" (.str fmt) else out
    | _ => out
  copyKeys ["pattern", "minLength", "maxLength"] σ out

/-- `NumberSchemaHandler.can_handle`. -/
def numberCanHandle (σ : Fields) : Bool :=
  dgetD σ "type" .null = Json.str "integer" ||
    dgetD σ "type" .null = Json.str "number"

/-- One exclusive-bound step of `NumberSchemaHandler.handle`: `exclKey` is
`exclusiveMinimum` or `exclusiveMaximum` and `boundKey` the matching
`minimum`/`maximum`. -/
def exclusiveBoundStep (exclKey boundKey : String) (σ out : Fields) :
    Fields :=
  match dget σ exclKey with
  | some (.bool b) =>
    if b && dmem σ boundKey then dset out exclKey (dgetD σ boundKey .null)
    else out
  | some (.num x) => dset out exclKey (.num x)
  | some _ => derase out exclKey
  | none => out

/-- The part of `NumberSchemaHandler.handle` before the exclusive-bound
handling: the type default, the verbatim `format` copy and the verbatim
`minimum`/`maximum`/`multipleOf` copies. -/
def numberBase (σ out : Fields) : Fields :=
  let out := if dmem out "type" then out else dset out "type" (dgetD σ "type" .null)
  let out :=
    match dget σ "format" with
    | some v => dset out "format" v
    | none => out
  copyKeys ["minimum", "maximum", "multipleOf"] σ out

/-- `NumberSchemaHandler.handle`. -/
def numberHandle (σ out : Fields) : Fields :=
  exclusiveBoundStep "exclusiveMaximum" "maximum" σ
    (exclusiveBoundStep "exclusiveMinimum" "minimum" σ (numberBase σ out))

/-- `CommonSchemaHandler._copy_common_keywords`: copies the listed keywords
verbatim, translating the singular `example` into a one-element `examples`
array. -/
def copyCommonKeywords (σ out : Fields) : Fields :=
  ["description", "title", "default", "example", "readOnly", "writeOnly",
   "deprecated"].foldl
    (fun acc k =>
      match dget σ k with
      | some v =>
        if k = "example" then dset acc "examples" (.arr [v])
        else dset acc k v
      | none => acc)
    out

/-- `CommonSchemaHandler._handle_nullable`. -/
def handleNullable (σ out : Fields) : Fields :=
  if (dgetD σ "nullable" (.bool false)).truthy && dmem out "type" then
    match dget out "type" with
    | some (.arr ts) =>
      if Json.str "null" ∈ ts then out
      else dset out "type" (.arr (ts ++ [.str "null"]))
    | some t => if t = .str "null" then out else dset out "type" (.arr [t, .str "null"])
    | none => out
  else out

/-- `CommonSchemaHandler.handle` (the catch-all handler; `can_handle` is
true for every dict). -/
def commonHandle (σ out : Fields) : Fields :=
  handleNullable σ (copyCommonKeywords σ out)

section HandlerLemmas

theorem dget_copyKeys_not_mem (keys : List String) (σ out : Fields)
    (k : String) (h : k ∉ keys) :
    dget (copyKeys keys σ out) k = dget out k := by
  induction keys generalizing out with
  | nil => rfl
  | cons k0 ks ih =>
    have hk0 : k0 ≠ k := fun he => h (he ▸ List.mem_cons_self k0 ks)
    have hks : k ∉ ks := fun he => h (List.mem_cons_of_mem _ he)
    show dget (copyKeys ks σ _) k = dget out k
    rw [ih _ hks]
    cases hv : dget σ k0 <;> simp [hv, dget_dset_ne _ _ _ _ hk0]

theorem dget_exclusiveBoundStep_ne (ek bk : String) (σ out : Fields)
    (k : String) (h : ek ≠ k) :
    dget (exclusiveBoundStep ek bk σ out) k = dget out k := by
  unfold exclusiveBoundStep
  cases hv : dget σ ek with
  | none => rfl
  | some v =>
    cases v <;>
      simp [dget_dset_ne _ _ _ _ h, dget_derase_ne _ _ _ h] <;>
      split <;>
      simp [dget_dset_ne _ _ _ _ h]

theorem dget_exclusiveBoundStep_self (ek bk : String) (σ X : Fields) :
    dget (exclusiveBoundStep ek bk σ X) ek =
      match dget σ ek with
      | some (.bool b) =>
        if b && dmem σ bk then some (dgetD σ bk .null) else dget X ek
      | some (.num x) => some (.num x)
      | some _ => none
      | none => dget X ek := by
  unfold exclusiveBoundStep
  cases hv : dget σ ek with
  | none => rfl
  | some v =>
    cases v <;>
      simp [dget_dset_self, dget_derase_self] <;>
      split <;>
      simp [dget_dset_self]

theorem dget_numberBase_ne (σ out : Fields) (k : String)
    (h : k ∉ (["type", "format", "minimum", "maximum", "multipleOf"] :
      List String)) :
    dget (numberBase σ out) k = dget out k := by
  simp only [List.mem_cons, not_or] at h
  obtain ⟨h1, h2, h3, h4, h5, -⟩ := h
  unfold numberBase
  rw [dget_copyKeys_not_mem _ _ _ _ (by simp [h3, h4, h5])]
  cases hv : dget σ "format" <;>
    simp only [hv, dget_dset_ne _ _ _ _ (Ne.symm h2)] <;>
    split <;>
    simp [dget_dset_ne _ _ _ _ (Ne.symm h1)]

end HandlerLemmas

/-- Claim C8: the number handler's treatment of
`exclusiveMinimum`/`exclusiveMaximum` for integer/number schemas: a boolean
`true` paired with a present `minimum`/`maximum` copies that boundary value
into the exclusive keyword; a boolean `false` leaves the exclusive keyword
absent from the output; a numeric value is copied directly; any other value
type is dropped from the output. -/
theorem claim_C8_exclusive_bounds (σ out : Fields)
    (hcan : numberCanHandle σ = true) :
    (∀ m, dget σ "exclusiveMinimum" = some (.bool true) →
      dget σ "minimum" = some m →
      dget (numberHandle σ out) "exclusiveMinimum" = some m) ∧
    (dget σ "exclusiveMinimum" = some (.bool false) →
      dget out "exclusiveMinimum" = none →
      dget (numberHandle σ out) "exclusiveMinimum" = none) ∧
    (∀ x : Int, dget σ "exclusiveMinimum" = some (.num x) →
      dget (numberHandle σ out) "exclusiveMinimum" = some (.num x)) ∧
    (∀ v, dget σ "exclusiveMinimum" = some v →
      v.isBool = false → v.isNum = false →
      dget (numberHandle σ out) "exclusiveMinimum" = none) ∧
    (∀ m, dget σ "exclusiveMaximum" = some (.bool true) →
      dget σ "maximum" = some m →
      dget (numberHandle σ out) "exclusiveMaximum" = some m) ∧
    (dget σ "exclusiveMaximum" = some (.bool false) →
      dget out "exclusiveMaximum" = none →
      dget (numberHandle σ out) "exclusiveMaximum" = none) ∧
    (∀ x : Int, dget σ "exclusiveMaximum" = some (.num x) →
      dget (numberHandle σ out) "exclusiveMaximum" = some (.num x)) ∧
    (∀ v, dget σ "exclusiveMaximum" = some v →
      v.isBool = false → v.isNum = false →
      dget (numberHandle σ out) "exclusiveMaximum" = none) := by
  have hbmin : dget (numberBase σ out) "exclusiveMinimum"
      = dget out "exclusiveMinimum" := dget_numberBase_ne σ out _ (by decide)
  have hbmax : dget (exclusiveBoundStep "exclusiveMinimum" "minimum" σ
        (numberBase σ out)) "exclusiveMaximum"
      = dget out "exclusiveMaximum" := by
    rw [dget_exclusiveBoundStep_ne _ _ _ _ _ (by decide)]
    exact dget_numberBase_ne σ out _ (by decide)
  and_intros
  · intro m h hm
    simp only [numberHandle]
    rw [dget_exclusiveBoundStep_ne _ _ _ _ _ (by decide),
      dget_exclusiveBoundStep_self, h]
    simp [dmem, hm, dgetD]
  · intro h hout
    simp only [numberHandle]
    rw [dget_exclusiveBoundStep_ne _ _ _ _ _ (by decide),
      dget_exclusiveBoundStep_self, h]
    simp [hbmin, hout]
  · intro x h
    simp only [numberHandle]
    rw [dget_exclusiveBoundStep_ne _ _ _ _ _ (by decide),
      dget_exclusiveBoundStep_self, h]
  · intro v h hb hn
    simp only [numberHandle]
    rw [dget_exclusiveBoundStep_ne _ _ _ _ _ (by decide),
      dget_exclusiveBoundStep_self, h]
    cases v <;> simp_all [Json.isBool, Json.isNum]
  · intro m h hm
    simp only [numberHandle]
    rw [dget_exclusiveBoundStep_self, h]
    simp [dmem, hm, dgetD]
  · intro h hout
    simp only [numberHandle]
    rw [dget_exclusiveBoundStep_self, h]
    simp [hbmax, hout]
  · intro x h
    simp only [numberHandle]
    rw [dget_exclusiveBoundStep_self, h]
  · intro v h hb hn
    simp only [numberHandle]
    rw [dget_exclusiveBoundStep_self, h]
    cases v <;> simp_all [Json.isBool, Json.isNum]

/-- Witness for C8: a concrete integer schema with a legacy boolean
`exclusiveMinimum: true` paired with `minimum: 3` produces
`exclusiveMinimum: 3`. -/
theorem claim_C8_exclusive_bounds_witness :
    numberCanHandle
      [("type", Json.str "integer"), ("exclusiveMinimum", Json.bool true),
       ("minimum", Json.num 3)] = true ∧
    dget (numberHandle
      [("type", Json.str "integer"), ("exclusiveMinimum", Json.bool true),
       ("minimum", Json.num 3)] []) "exclusiveMinimum" = some (Json.num 3) :=
  ⟨by decide,
    (claim_C8_exclusive_bounds
      [("type", Json.str "integer"), ("exclusiveMinimum", Json.bool true),
       ("minimum", Json.num 3)] [] (by decide)).1 (Json.num 3)
      (by decide) (by decide)⟩

/-! ## Python value rendering and reference resolution
(`openapi_to_mcp/schema/handlers/reference.py`) -/

mutual

/-- Python `repr` of a parsed JSON value (used by f-string interpolation of
non-string values; string escaping inside `repr` is not modelled, as no
statement in this development depends on it). -/
def pyRepr : Json → String
  | .null => "None"
  | .bool true => "True"
  | .bool false => "False"
  | .num n => toString n
  | .str s => "\x27" ++ s ++ "\x27"
  | .arr xs => "[" ++ pyReprList xs ++ "]"
  | .obj fs => "\x7b" ++ pyReprFields fs ++ "\x7d"

/-- Comma-separated `repr` of list elements. -/
def pyReprList : List Json → String
  | [] => ""
  | [x] => pyRepr x
  | x :: xs => pyRepr x ++ ", " ++ pyReprList xs

/-- Comma-separated `repr` of dict items. -/
def pyReprFields : List (String × Json) → String
  | [] => ""
  | [(k, v)] => "\x27" ++ k ++ "\x27: " ++ pyRepr v
  | (k, v) :: fs => "\x27" ++ k ++ "\x27: " ++ pyRepr v ++ ", " ++ pyReprFields fs

end

/-- Python `str()` of a parsed JSON value, as produced by f-string
interpolation. -/
def pyStr : Json → String
  | .str s => s
  | v => pyRepr v

/-- Does `s` start with `pre` (Python `str.startswith`)? -/
def strStartsWith (s pre : String) : Bool :=
  go pre.data s.data
where
  go : List Char → List Char → Bool
    | [], _ => true
    | x :: xs, y :: ys => x = y && go xs ys
    | _, _ => false

/-- Value of a hexadecimal digit. -/
def hexVal (c : Char) : Option Nat :=
  let n := c.toNat
  if 48 ≤ n ∧ n ≤ 57 then some (n - 48)
  else if 97 ≤ n ∧ n ≤ 102 then some (n - 87)
  else if 65 ≤ n ∧ n ≤ 70 then some (n - 55)
  else none

/-- Percent-decoding of a reference segment (`urllib.parse.unquote` as
re-exported by `requests.utils`), restricted to single-byte escapes —
multi-byte UTF-8 escapes do not occur in the statements below. -/
def unquoteChars : List Char → List Char
  | [] => []
  | '%' :: a :: b :: rest =>
    (match hexVal a, hexVal b with
     | some ha, some hb => Char.ofNat (16 * ha + hb) :: unquoteChars rest
     | _, _ => '%' :: a :: b :: unquoteChars rest)
  | c :: rest => c :: unquoteChars rest

/-- Python `int(s)`: optional surrounding whitespace, an optional sign and a
nonempty digit string (digit-group underscores are not modelled). -/
def pyInt? (s : String) : Option Int :=
  let ws : Char → Bool := fun c => c = ' ' || c = '\t' || c = '\n' || c = '\r'
  let l := (((s.data.dropWhile ws).reverse.dropWhile ws).reverse)
  let digitsVal : List Char → Option Nat := fun ds =>
    if !ds.isEmpty && ds.all Char.isDigit then
      some (ds.foldl (fun a c => 10 * a + (c.toNat - 48)) 0)
    else none
  match l with
  | '-' :: ds => (digitsVal ds).map fun n => -(n : Int)
  | '+' :: ds => (digitsVal ds).map fun n => (n : Int)
  | ds => (digitsVal ds).map fun n => (n : Int)

/-- Python list indexing `xs[i]` with negative indices counting from the
end; `none` models `IndexError`. -/
def pyListIndex (xs : List Json) (i : Int) : Option Json :=
  if 0 ≤ i then xs.get? i.toNat
  else if (-i).toNat ≤ xs.length then xs.get? (xs.length - (-i).toNat)
  else none

/-- The placeholder fragment for an unresolvable reference. -/
def unresolvedRef (ref : String) : Fields :=
  [("description", .str ("Unresolved reference: " ++ ref))]

/-- The traversal loop of `ReferenceHandler.resolve_ref`: walks the full
specification segment by segment, indexing into lists by parsed integer and
into dicts by key; `none` models the caught
`KeyError`/`IndexError`/`ValueError`/`TypeError`. -/
def resolveWalk : Json → List String → Option Json
  | cur, [] => some cur
  | cur, p :: rest =>
    match cur with
    | .arr xs =>
      (match pyInt? p with
       | some i =>
         match pyListIndex xs i with
         | some x => resolveWalk x rest
         | none => none
       | none => none)
    | .obj fs =>
      (match dget fs p with
       | some v => resolveWalk v rest
       | none => none)
    | _ => none

/-- `ReferenceHandler.resolve_ref`: resolves a same-document `$ref` string
against the full specification, or returns a descriptive placeholder
fragment.  The result is always a dict, matching the Python function. -/
def resolveRef (spec : Json) (ref : String) : Fields :=
  match ref.data with
  | '#' :: '/' :: rest =>
    let parts := (splitChar '/' rest).map fun p => String.mk (unquoteChars p)
    (match resolveWalk spec parts with
     | none => unresolvedRef ref
     | some (.obj fs) => fs
     | some _ =>
       [("description", .str ("Resolved reference is not an object: " ++ ref))])
  | _ => unresolvedRef ref

/-! ## The schema converter (`openapi_to_mcp/schema/converter.py`) -/

/-- The visited-reference set of one `ReferenceHandler` instance.  Python
stores the (hashable) `$ref` values in a `set`; only membership and
insertion are ever used, so an insertion-ordered list models it. -/
abbrev Visited := List Json

/-- `set.add`. -/
def addVis (V : Visited) (r : Json) : Visited :=
  if r ∈ V then V else r :: V

/-- The signature of the converter callback handed to each handler
(`self.converter.convert`). -/
abbrev ConvertFn := Json → Visited → Option (Json × Visited)

/-- Result of running one handler: the mutated output fragment, the mutated
visited set, and whether a Python exception escaped the handler (to be
caught and logged by the converter loop). -/
structure HOut where
  out : Fields
  vis : Visited
  raised : Bool

/-- `ReferenceHandler.can_handle`. -/
def referenceCanHandle (σ : Fields) : Bool :=
  dmem σ "$ref"

/-- `CompositionHandler.can_handle`. -/
def compositionCanHandle (σ : Fields) : Bool :=
  dmem σ "allOf" || dmem σ "anyOf" || dmem σ "oneOf" || dmem σ "not"

/-- `ObjectSchemaHandler.can_handle`. -/
def objectCanHandle (σ : Fields) : Bool :=
  dgetD σ "type" .null = Json.str "object" || dmem σ "properties"

/-- `ArraySchemaHandler.can_handle`. -/
def arrayCanHandle (σ : Fields) : Bool :=
  dgetD σ "type" .null = Json.str "array" || dmem σ "items"

/-- `fragment.get("description", "").startswith(tuple(pres))`: `some b` when
the description is absent (the default `""`) or a string, `none` when a
non-string description makes `.startswith` raise `AttributeError`. -/
def descErrorFlag (fs : Fields) (pres : List String) : Option Bool :=
  match dget fs "description" with
  | none => some false
  | some (.str d) => some (pres.any fun p => strStartsWith d p)
  | some _ => none

/-- The two placeholder markers checked before recursing into a resolved
reference target. -/
def refErrorPre2 : List String :=
  ["Unresolved reference:", "Resolved reference is not an object:"]

/-- The three placeholder markers checked on the recursively converted
result. -/
def refErrorPre3 : List String :=
  ["Unresolved reference:", "Cyclic reference detected:",
   "Resolved reference is not an object:"]

/-- The provenance annotation appended by the reference handler when the
merged result carries no `description`. -/
def refAnnotate (σ out : Fields) (ref : String) : Fields :=
  if dmem out "description" then out
  else
    match dget σ "description" with
    | some d =>
      if d.truthy then
        dset out "description" (.str (pyStr d ++ " (from ref: " ++ ref ++ ")"))
      else dset out "description" (.str ("(from ref: " ++ ref ++ ")"))
    | none => dset out "description" (.str ("(from ref: " ++ ref ++ ")"))

/-- The cyclic-reference placeholder written over the output fragment when a
`$ref` value is already in the visited set. -/
def cyclicPlaceholder (out : Fields) (refv : Json) : Fields :=
  dset (dset out "description"
      (.str ("Cyclic reference detected: " ++ pyStr refv)))
    "_is_cyclic_reference" (.bool true)

/-- `ReferenceHandler.handle`.  `rec` is the converter callback; `raised`
paths mirror the positions where the Python body raises
(`TypeError` on an unhashable `$ref` value, `AttributeError` on a
non-string `$ref` or a non-string description). -/
def refHandle (spec : Json) (rec : ConvertFn) (σ out : Fields) (V : Visited) :
    Option HOut :=
  let refv := dgetD σ "$ref" .null
  match refv with
  | .arr _ => some ⟨out, V, true⟩
  | .obj _ => some ⟨out, V, true⟩
  | _ =>
    if refv ∈ V then
      some ⟨cyclicPlaceholder out refv, V, false⟩
    else
      let V1 := addVis V refv
      match refv with
      | .str ref =>
        let resolved := resolveRef spec ref
        (match descErrorFlag resolved refErrorPre2 with
         | none => some ⟨out, V1, true⟩
         | some true => some ⟨dupdate out resolved, V1, false⟩
         | some false =>
           match rec (.obj resolved) V1 with
           | none => none
           | some (res, V2) =>
             let rf := res.fieldsOf
             match descErrorFlag rf refErrorPre3 with
             | none => some ⟨out, V2, true⟩
             | some isRecErr =>
               let out1 :=
                 if dget rf "_is_cyclic_reference" = some (.bool true) then
                   dset out "_is_cyclic_reference" (.bool true)
                 else out
               if isRecErr then some ⟨dupdate out1 rf, V2, false⟩
               else some ⟨refAnnotate σ (dupdate out1 rf) ref, V2, false⟩)
      | _ => some ⟨out, V1, true⟩

/-- Converts each element of a list in order, threading the visited set
(the list comprehension in `CompositionHandler.handle`). -/
def convertJsonList (rec : ConvertFn) : List Json → Visited →
    Option (List Json × Visited)
  | [], V => some ([], V)
  | s :: rest, V =>
    match rec s V with
    | none => none
    | some (r, V1) =>
      match convertJsonList rec rest V1 with
      | none => none
      | some (rs, V2) => some (r :: rs, V2)

/-- One keyword of `CompositionHandler.handle`. -/
def compKeyStep (rec : ConvertFn) (key : String) (σ : Fields)
    (st : Fields × Visited) : Option (Fields × Visited) :=
  if key = "not" then
    match dget σ key with
    | some (.obj nf) =>
      (match rec (.obj nf) st.2 with
       | none => none
       | some (r, V1) => some (dset st.1 key r, V1))
    | _ => some st
  else
    match dget σ key with
    | some (.arr items) =>
      let valid := items.filter Json.isObj
      if valid.isEmpty then some st
      else
        match convertJsonList rec valid st.2 with
        | none => none
        | some (rs, V1) => some (dset st.1 key (.arr rs), V1)
    | _ => some st

/-- `CompositionHandler.handle`: processes `allOf`, `oneOf`, `anyOf`, `not`
in that order. -/
def compositionHandle (rec : ConvertFn) (σ out : Fields) (V : Visited) :
    Option HOut :=
  match compKeyStep rec "allOf" σ (out, V) with
  | none => none
  | some st1 =>
    match compKeyStep rec "oneOf" σ st1 with
    | none => none
    | some st2 =>
      match compKeyStep rec "anyOf" σ st2 with
      | none => none
      | some st3 =>
        match compKeyStep rec "not" σ st3 with
        | none => none
        | some st4 => some ⟨st4.1, st4.2, false⟩

/-- Converts each property schema in order, accumulating the converted
properties dict (`ObjectSchemaHandler.handle`). -/
def convertProps (rec : ConvertFn) : Fields → Fields → Visited →
    Option (Fields × Visited)
  | [], acc, V => some (acc, V)
  | (name, psch) :: rest, acc, V =>
    match rec psch V with
    | none => none
    | some (r, V1) => convertProps rec rest (dset acc name r) V1

/-- `ObjectSchemaHandler.handle`. -/
def objectHandle (rec : ConvertFn) (σ out : Fields) (V : Visited) :
    Option HOut :=
  let out := if dmem out "type" then out else dset out "type" (.str "object")
  let out := dset out "properties" (.obj [])
  let out := dset out "required" (dgetD σ "required" (.arr []))
  match (match dget σ "properties" with
         | some (.obj props) =>
           (match convertProps rec props [] V with
            | none => none
            | some (ps, V1) => some (dset out "properties" (.obj ps), V1))
         | _ => some (out, V) : Option (Fields × Visited)) with
  | none => none
  | some (out1, V1) =>
    match dget σ "additionalProperties" with
    | some (.bool b) => some ⟨dset out1 "additionalProperties" (.bool b), V1, false⟩
    | some (.obj af) =>
      (match rec (.obj af) V1 with
       | none => none
       | some (r, V2) => some ⟨dset out1 "additionalProperties" r, V2, false⟩)
    | _ => some ⟨out1, V1, false⟩

/-- `ArraySchemaHandler.handle`. -/
def arrayHandle (rec : ConvertFn) (σ out : Fields) (V : Visited) :
    Option HOut :=
  let out := if dmem out "type" then out else dset out "type" (.str "array")
  match rec (dgetD σ "items" (.obj [])) V with
  | none => none
  | some (r, V1) =>
    some ⟨copyKeys ["minItems", "maxItems", "uniqueItems"] σ
      (dset out "items" r), V1, false⟩

/-- `SchemaConverter._infer_type`. -/
def inferType (σ : Fields) : Option Json :=
  if dmem σ "properties" then some (.str "object")
  else if dmem σ "items" then some (.str "array")
  else none

/-- `openapi_schema.get("type") or self._infer_type(openapi_schema)`,
followed by the truthiness test that guards `json_schema["type"] = ...`. -/
def initialType (σ : Fields) : Option Json :=
  match dget σ "type" with
  | some v => if v.truthy then some v else inferType σ
  | none => inferType σ

/-- Truthiness of `json_schema.get("_is_cyclic_reference")`. -/
def cyclicFlagTruthy (fs : Fields) : Bool :=
  (dgetD fs "_is_cyclic_reference" .null).truthy

/-- One iteration of the converter's handler loop: skip when `can_handle`
is false, otherwise run the handler, catch a raised exception (keeping the
mutations made before the raise), and record the cyclic marker seen by the
in-loop check — which the `except` clause skips when the handler raised. -/
def stepState (σ : Fields) (can : Fields → Bool)
    (run : Fields → Fields → Visited → Option HOut) :
    Option (Fields × Visited × Bool) → Option (Fields × Visited × Bool)
  | none => none
  | some (out, V, cyc) =>
    if can σ then
      match run σ out V with
      | none => none
      | some h => some (h.out, h.vis, cyc || (!h.raised && cyclicFlagTruthy h.out))
    else some (out, V, cyc)

/-- `SchemaConverter.convert`, with fuel for the recursion through resolved
references.  The `SchemaConverter` instance state is `(spec, V)`: the full
specification and the visited-reference set of the converter's single
`ReferenceHandler`. -/
def convert : Nat → Json → Visited → Json → Option (Json × Visited)
  | 0, _, _, _ => none
  | n + 1, spec, V, j =>
    match j with
    | .obj σ =>
      let recFn : ConvertFn := fun s W => convert n spec W s
      let out0 : Fields :=
        match initialType σ with
        | some t => [("type", t)]
        | none => []
      let st := stepState σ referenceCanHandle (refHandle spec recFn)
        (some (out0, V, false))
      let st := stepState σ compositionCanHandle (compositionHandle recFn) st
      let st := stepState σ objectCanHandle (objectHandle recFn) st
      let st := stepState σ arrayCanHandle (arrayHandle recFn) st
      let st := stepState σ stringCanHandle
        (fun s o W => some ⟨stringHandle s o, W, false⟩) st
      let st := stepState σ numberCanHandle
        (fun s o W => some ⟨numberHandle s o, W, false⟩) st
      let st := stepState σ (fun _ => true)
        (fun s o W => some ⟨commonHandle s o, W, false⟩) st
      (match st with
       | none => none
       | some (out, V1, cyc) =>
         some (.obj (if cyc then dset out "_is_cyclic_reference" (.bool true)
           else out), V1))
    | _ => some (.obj [], V)

/-- `openapi_schema_to_json_schema`: constructs a fresh `SchemaConverter`
(empty visited set) and converts. -/
def openapiSchemaToJsonSchema (fuel : Nat) (spec j : Json) : Option Json :=
  (convert fuel spec [] j).map Prod.fst

section ConverterLemmas

theorem dget_dupdate_none (fs other : Fields) (k : String)
    (h : dget other k = none) : dget (dupdate fs other) k = dget fs k := by
  induction other generalizing fs with
  | nil => rfl
  | cons kv rest ih =>
    obtain ⟨k₀, v₀⟩ := kv
    by_cases h0 : k₀ = k
    · simp [dget, h0] at h
    · simp only [dget, h0, if_false] at h
      show dget (dupdate (dset fs k₀ v₀) rest) k = dget fs k
      rw [ih _ h, dget_dset_ne _ _ _ _ h0]

theorem dget_dupdate_nil (other : Fields) (k : String)
    (h : dget other k = none) : dget (dupdate [] other) k = none :=
  dget_dupdate_none [] other k h

theorem dget_refAnnotate_ne (σ out : Fields) (r : String) (k : String)
    (h : k ≠ "description") :
    dget (refAnnotate σ out r) k = dget out k := by
  unfold refAnnotate
  split
  · rfl
  · split
    · split <;> rw [dget_dset_ne _ _ _ _ (Ne.symm h)]
    · rw [dget_dset_ne _ _ _ _ (Ne.symm h)]

theorem copyCommonKeywords_pure_ref (p : String) (out : Fields) :
    copyCommonKeywords [("$ref", Json.str p)] out = out := by
  simp +decide [copyCommonKeywords, dget]

theorem handleNullable_pure_ref (p : String) (out : Fields) :
    handleNullable [("$ref", Json.str p)] out = out := by
  simp +decide [handleNullable, dgetD, dget, Json.truthy]

theorem commonHandle_pure_ref (p : String) (out : Fields) :
    commonHandle [("$ref", Json.str p)] out = out := by
  rw [commonHandle, copyCommonKeywords_pure_ref, handleNullable_pure_ref]

theorem strStartsWith_go_self (l rest : List Char) :
    strStartsWith.go l (l ++ rest) = true := by
  induction l with
  | nil => rfl
  | cons a as ih => simp [strStartsWith.go, ih]

theorem strStartsWith_append (pre s : String) :
    strStartsWith (pre ++ s) pre = true := by
  unfold strStartsWith
  rw [String.data_append]
  exact strStartsWith_go_self pre.data s.data

theorem cyclic_desc_startsWith (p : String) :
    strStartsWith ("Cyclic reference detected: " ++ p)
      "Cyclic reference detected:" = true := by
  have e : ("Cyclic reference detected: " : String)
      = "Cyclic reference detected:" ++ " " := by decide
  have h := congrArg (fun s => s ++ p) e
  simp only [String.append_assoc] at h
  rw [h]
  exact strStartsWith_append _ _

end ConverterLemmas

/-- Claim C2: for every valid same-document reference path `p` (starting
with `#/`, resolvable — equivalently, the resolved fragment does not carry
an unresolved/invalid-target placeholder description — with a map target,
and not previously visited), `convert (\x7b$ref: p\x7d)` equals
`convert (resolve p)` (run on the same converter instance, whose visited
set has just received `p`) merged into the fresh output fragment, with the
provenance description annotation added when the result carries no
description — `"(from ref: p)"`, or `"<original description> (from ref:
p)"` had the reference object carried one — unless the converted target
carries an unresolved/cyclic/invalid-target placeholder (hypotheses
`hpost`/`hflag` exclude exactly those). -/
theorem claim_C2_ref_conversion (spec : Json) (n : Nat) (p : String)
    (V : Visited) (Tf rf : Fields) (Vf : Visited)
    (hmem : Json.str p ∉ V)
    (hres : resolveRef spec p = Tf)
    (hpre : descErrorFlag Tf refErrorPre2 = some false)
    (hrec : convert n spec (Json.str p :: V) (.obj Tf) = some (.obj rf, Vf))
    (hpost : descErrorFlag rf refErrorPre3 = some false)
    (hflag : dget rf "_is_cyclic_reference" = none) :
    convert (n + 1) spec V (.obj [("$ref", .str p)])
      = some (.obj (refAnnotate [("$ref", .str p)] (dupdate [] rf) p), Vf) := by
  have hup : dget (dupdate [] rf) "_is_cyclic_reference" = none :=
    dget_dupdate_nil rf _ hflag
  have hann : dget (refAnnotate [("$ref", .str p)] (dupdate [] rf) p)
      "_is_cyclic_reference" = none := by
    rw [dget_refAnnotate_ne _ _ _ _ (by decide), hup]
  have hcft : cyclicFlagTruthy
      (refAnnotate [("$ref", .str p)] (dupdate [] rf) p) = false := by
    rw [cyclicFlagTruthy, dgetD, hann]
    rfl
  simp only [convert]
  simp +decide [stepState, initialType, inferType, dget, dmem, dgetD,
    referenceCanHandle, compositionCanHandle, objectCanHandle,
    arrayCanHandle, stringCanHandle, numberCanHandle,
    refHandle, addVis, hmem, hres, hpre, hrec, hpost, hflag,
    Json.fieldsOf, commonHandle_pure_ref, hcft]

/-- Second encounter of a `$ref` path already in the visited set: the
converter returns the cyclic placeholder at once — one unit of fuel
suffices (no recursion happens) and the visited set is unchanged. -/
theorem convert_second_encounter (spec : Json) (p : String) (W : Visited)
    (m : Nat) (h : Json.str p ∈ W) :
    convert (m + 1) spec W (.obj [("$ref", .str p)])
      = some (.obj [("description",
          .str ("Cyclic reference detected: " ++ p)),
          ("_is_cyclic_reference", .bool true)], W) := by
  simp only [convert]
  simp +decide [stepState, initialType, inferType, dget, dmem, dgetD, dset,
    referenceCanHandle, compositionCanHandle, objectCanHandle,
    arrayCanHandle, stringCanHandle, numberCanHandle,
    refHandle, cyclicPlaceholder, pyStr, h,
    Json.fieldsOf, commonHandle_pure_ref, cyclicFlagTruthy, Json.truthy]

/-- Claim C3: for a pair of schemas referencing each other cyclically
(`resolve p = \x7b$ref: q\x7d` and `resolve q = \x7b$ref: p\x7d`),
converting `\x7b$ref: p\x7d` on one converter instance terminates — for
every fuel at least 3 the result is `some` and independent of the fuel —
and the returned tree carries `_is_cyclic_reference: true`; moreover the
second encounter of a visited reference path is replaced by the placeholder
`\x7bdescription: "Cyclic reference detected: <refPath>",
_is_cyclic_reference: true\x7d` without further recursion (a single unit of
fuel suffices and the visited set is unchanged). -/
theorem claim_C3_cycle_detection (spec : Json) (p q : String) (V : Visited)
    (hpq : p ≠ q) (hp : Json.str p ∉ V) (hq : Json.str q ∉ V)
    (hrp : resolveRef spec p = [("$ref", .str q)])
    (hrq : resolveRef spec q = [("$ref", .str p)]) :
    (∀ n, convert (n + 3) spec V (.obj [("$ref", .str p)])
      = some (.obj [("_is_cyclic_reference", .bool true),
          ("description", .str ("Cyclic reference detected: " ++ p))],
        Json.str q :: Json.str p :: V)) ∧
    cyclicFlagTruthy [("_is_cyclic_reference", .bool true),
      ("description", .str ("Cyclic reference detected: " ++ p))] = true ∧
    (∀ m W, Json.str p ∈ W →
      convert (m + 1) spec W (.obj [("$ref", .str p)])
        = some (.obj [("description",
            .str ("Cyclic reference detected: " ++ p)),
            ("_is_cyclic_reference", .bool true)], W)) := by
  refine ⟨?_, by simp [cyclicFlagTruthy, dgetD, dget, Json.truthy],
    fun m W hW => convert_second_encounter spec p W m hW⟩
  intro n
  have hqp : ¬ q = p := fun h => hpq h.symm
  have hlevel2 : ∀ k, convert k spec
      (Json.str q :: Json.str p :: V) (.obj [("$ref", .str p)])
        = some (.obj [("description",
            .str ("Cyclic reference detected: " ++ p)),
            ("_is_cyclic_reference", .bool true)],
          Json.str q :: Json.str p :: V) →
      convert (k + 1) spec (Json.str p :: V) (.obj [("$ref", .str q)])
        = some (.obj [("_is_cyclic_reference", .bool true),
            ("description", .str ("Cyclic reference detected: " ++ p))],
          Json.str q :: Json.str p :: V) := by
    intro k h3
    simp only [convert]
    simp +decide [stepState, initialType, inferType, dget, dmem, dgetD,
      referenceCanHandle, compositionCanHandle, objectCanHandle,
      arrayCanHandle, stringCanHandle, numberCanHandle,
      refHandle, addVis, hqp, hq, hrq, h3, descErrorFlag,
      refErrorPre3, cyclic_desc_startsWith, dupdate, dset, pyStr,
      Json.fieldsOf, commonHandle_pure_ref, cyclicFlagTruthy, Json.truthy]
  have hlevel1 : ∀ k, convert k spec
      (Json.str p :: V) (.obj [("$ref", .str q)])
        = some (.obj [("_is_cyclic_reference", .bool true),
            ("description", .str ("Cyclic reference detected: " ++ p))],
          Json.str q :: Json.str p :: V) →
      convert (k + 1) spec V (.obj [("$ref", .str p)])
        = some (.obj [("_is_cyclic_reference", .bool true),
            ("description", .str ("Cyclic reference detected: " ++ p))],
          Json.str q :: Json.str p :: V) := by
    intro k h2
    simp only [convert]
    simp +decide [stepState, initialType, inferType, dget, dmem, dgetD,
      referenceCanHandle, compositionCanHandle, objectCanHandle,
      arrayCanHandle, stringCanHandle, numberCanHandle,
      refHandle, addVis, hp, hrp, h2, descErrorFlag,
      refErrorPre3, cyclic_desc_startsWith, dupdate, dset, pyStr,
      Json.fieldsOf, commonHandle_pure_ref, cyclicFlagTruthy, Json.truthy]
  have h3 := convert_second_encounter spec p
    (Json.str q :: Json.str p :: V) n (by simp)
  exact hlevel1 (n + 2) (hlevel2 (n + 1) h3)

/-- A two-schema specification whose members reference each other
cyclically. -/
def cycleWitnessSpec : Json :=
  .obj [("components", .obj [("schemas", .obj [
    ("A", .obj [("$ref", .str "#/components/schemas/B")]),
    ("B", .obj [("$ref", .str "#/components/schemas/A")])])])]

/-- Witness for C3: converting `A` of the concrete cyclic pair `A ↔ B`
terminates at fuel 3 with the cyclic marker in the result. -/
theorem claim_C3_cycle_detection_witness :
    convert 3 cycleWitnessSpec []
        (.obj [("$ref", .str "#/components/schemas/A")])
      = some (.obj [("_is_cyclic_reference", .bool true),
          ("description", .str
            "Cyclic reference detected: #/components/schemas/A")],
        [Json.str "#/components/schemas/B",
         Json.str "#/components/schemas/A"]) :=
  ((claim_C3_cycle_detection cycleWitnessSpec
      "#/components/schemas/A" "#/components/schemas/B" []
      (by decide) (by decide) (by decide) (by decide) (by decide)).1
    0).trans (by decide)

/-- A one-schema specification used to instantiate the reference-handler
theorems on concrete input. -/
def refWitnessSpec : Json :=
  .obj [("components", .obj [("schemas", .obj [
    ("Pet", .obj [("type", .str "string")])])])]

/-- Witness for C2: converting `\x7b$ref: #/components/schemas/Pet\x7d`
against a concrete one-schema specification yields the converted `Pet`
schema plus the `(from ref: ...)` annotation. -/
theorem claim_C2_ref_conversion_witness :
    convert 2 refWitnessSpec []
        (.obj [("$ref", .str "#/components/schemas/Pet")])
      = some (.obj [("type", Json.str "string"),
          ("description",
            Json.str "(from ref: #/components/schemas/Pet)")],
        [Json.str "#/components/schemas/Pet"]) :=
  (claim_C2_ref_conversion refWitnessSpec 1 "#/components/schemas/Pet" []
      [("type", .str "string")] [("type", .str "string")]
      [Json.str "#/components/schemas/Pet"]
      (by decide) (by decide) (by decide) (by decide) (by decide)
      (by decide)).trans (by decide)

theorem subset_addVis (V : Visited) (r : Json) : V ⊆ addVis V r := by
  unfold addVis
  split
  · exact List.Subset.refl _
  · exact List.subset_cons_self _ _

theorem refHandle_vis_subset (spec : Json) (rec : ConvertFn)
    (σ out : Fields) (V : Visited) (h : HOut)
    (hrec : ∀ s W r W', rec s W = some (r, W') → W ⊆ W')
    (hh : refHandle spec rec σ out V = some h) : V ⊆ h.vis := by
  simp only [refHandle] at hh
  split at hh
  · cases hh; exact List.Subset.refl _
  · cases hh; exact List.Subset.refl _
  · split at hh
    · cases hh; exact List.Subset.refl _
    · split at hh
      · -- str case
        split at hh
        · cases hh; exact subset_addVis _ _
        · cases hh; exact subset_addVis _ _
        · split at hh
          · exact absurd hh (by simp)
          · rename_i res V2 heq
            split at hh
            · cases hh
              exact List.Subset.trans (subset_addVis _ _) (hrec _ _ _ _ heq)
            · split at hh <;>
                (cases hh;
                 exact List.Subset.trans (subset_addVis _ _) (hrec _ _ _ _ heq))
      · cases hh; exact subset_addVis _ _

theorem convertJsonList_vis_subset (rec : ConvertFn)
    (hrec : ∀ s W r W', rec s W = some (r, W') → W ⊆ W') :
    ∀ l V rs V', convertJsonList rec l V = some (rs, V') → V ⊆ V' := by
  intro l
  induction l with
  | nil => intro V rs V' hh; cases hh; exact List.Subset.refl _
  | cons s rest ih =>
    intro V rs V' hh
    simp only [convertJsonList] at hh
    split at hh
    · exact absurd hh (by simp)
    · rename_i r V1 heq
      split at hh
      · exact absurd hh (by simp)
      · rename_i rs2 V2 heq2
        cases hh
        exact List.Subset.trans (hrec _ _ _ _ heq) (ih _ _ _ heq2)

theorem compKeyStep_vis_subset (rec : ConvertFn) (key : String)
    (σ : Fields) (st : Fields × Visited) (st' : Fields × Visited)
    (hrec : ∀ s W r W', rec s W = some (r, W') → W ⊆ W')
    (hh : compKeyStep rec key σ st = some st') : st.2 ⊆ st'.2 := by
  simp only [compKeyStep] at hh
  split at hh
  · split at hh
    · split at hh
      · exact absurd hh (by simp)
      · rename_i r V1 heq
        cases hh
        exact hrec _ _ _ _ heq
    · cases hh; exact List.Subset.refl _
  · split at hh
    · split at hh
      · cases hh; exact List.Subset.refl _
      · split at hh
        · exact absurd hh (by simp)
        · rename_i rs V1 heq
          cases hh
          exact convertJsonList_vis_subset rec hrec _ _ _ _ heq
    · cases hh; exact List.Subset.refl _

theorem compositionHandle_vis_subset (rec : ConvertFn) (σ out : Fields)
    (V : Visited) (h : HOut)
    (hrec : ∀ s W r W', rec s W = some (r, W') → W ⊆ W')
    (hh : compositionHandle rec σ out V = some h) : V ⊆ h.vis := by
  simp only [compositionHandle] at hh
  split at hh
  · exact absurd hh (by simp)
  · rename_i st1 heq1
    split at hh
    · exact absurd hh (by simp)
    · rename_i st2 heq2
      split at hh
      · exact absurd hh (by simp)
      · rename_i st3 heq3
        split at hh
        · exact absurd hh (by simp)
        · rename_i st4 heq4
          cases hh
          exact List.Subset.trans
            (compKeyStep_vis_subset rec _ σ _ _ hrec heq1)
            (List.Subset.trans
              (compKeyStep_vis_subset rec _ σ _ _ hrec heq2)
              (List.Subset.trans
                (compKeyStep_vis_subset rec _ σ _ _ hrec heq3)
                (compKeyStep_vis_subset rec _ σ _ _ hrec heq4)))

theorem convertProps_vis_subset (rec : ConvertFn)
    (hrec : ∀ s W r W', rec s W = some (r, W') → W ⊆ W') :
    ∀ props acc V ps V', convertProps rec props acc V = some (ps, V') →
      V ⊆ V' := by
  intro props
  induction props with
  | nil => intro acc V ps V' hh; cases hh; exact List.Subset.refl _
  | cons kv rest ih =>
    intro acc V ps V' hh
    obtain ⟨name, psch⟩ := kv
    simp only [convertProps] at hh
    split at hh
    · exact absurd hh (by simp)
    · rename_i r V1 heq
      exact List.Subset.trans (hrec _ _ _ _ heq) (ih _ _ _ _ hh)

theorem objectHandle_vis_subset (rec : ConvertFn) (σ out : Fields)
    (V : Visited) (h : HOut)
    (hrec : ∀ s W r W', rec s W = some (r, W') → W ⊆ W')
    (hh : objectHandle rec σ out V = some h) : V ⊆ h.vis := by
  simp only [objectHandle] at hh
  split at hh
  · exact absurd hh (by simp)
  · rename_i out1 V1 heq1
    have h1 : V ⊆ V1 := by
      split at heq1
      · split at heq1
        · exact absurd heq1 (by simp)
        · rename_i ps V2 heq2
          cases heq1
          exact convertProps_vis_subset rec hrec _ _ _ _ _ heq2
      · cases heq1; exact List.Subset.refl _
    split at hh
    · cases hh; exact h1
    · split at hh
      · exact absurd hh (by simp)
      · rename_i r V2 heq2
        cases hh
        exact List.Subset.trans h1 (hrec _ _ _ _ heq2)
    · cases hh; exact h1

theorem arrayHandle_vis_subset (rec : ConvertFn) (σ out : Fields)
    (V : Visited) (h : HOut)
    (hrec : ∀ s W r W', rec s W = some (r, W') → W ⊆ W')
    (hh : arrayHandle rec σ out V = some h) : V ⊆ h.vis := by
  simp only [arrayHandle] at hh
  split at hh
  · exact absurd hh (by simp)
  · rename_i r V1 heq
    cases hh
    exact hrec _ _ _ _ heq

theorem stepState_vis_subset (σ : Fields) (can : Fields → Bool)
    (run : Fields → Fields → Visited → Option HOut)
    (st : Option (Fields × Visited × Bool))
    (out' : Fields) (V' : Visited) (cyc' : Bool)
    (hrun : ∀ o W h, run σ o W = some h → W ⊆ h.vis)
    (hst : stepState σ can run st = some (out', V', cyc')) :
    ∃ out V cyc, st = some (out, V, cyc) ∧ V ⊆ V' := by
  match st with
  | none => exact absurd hst (by simp [stepState])
  | some (o, W, c) =>
    refine ⟨o, W, c, rfl, ?_⟩
    simp only [stepState] at hst
    split at hst
    · split at hst
      · exact absurd hst (by simp)
      · rename_i hres heq
        cases hst
        exact hrun _ _ _ heq
    · cases hst; exact List.Subset.refl _

theorem convert_vis_subset :
    ∀ n spec V j r V', convert n spec V j = some (r, V') → V ⊆ V' := by
  intro n
  induction n with
  | zero =>
    intro spec V j r V' h
    exact absurd h (by simp [convert])
  | succ n ih =>
    intro spec V j r V' h
    have hrec : ∀ s W rr W',
        (fun s W => convert n spec W s) s W = some (rr, W') → W ⊆ W' :=
      fun s W rr W' hh => ih spec W s rr W' hh
    match j with
    | .null => cases h; exact List.Subset.refl _
    | .bool _ => cases h; exact List.Subset.refl _
    | .num _ => cases h; exact List.Subset.refl _
    | .str _ => cases h; exact List.Subset.refl _
    | .arr _ => cases h; exact List.Subset.refl _
    | .obj σ =>
      simp only [convert] at h
      split at h
      · exact absurd h (by simp)
      · rename_i st7 out V1 cyc heq
        cases h
        obtain ⟨o6, W6, c6, hst6, hs7⟩ := stepState_vis_subset _ _ _ _ _ _ _
          (fun o W ho hh => by cases hh; exact List.Subset.refl _) heq
        obtain ⟨o5, W5, c5, hst5, hs6⟩ := stepState_vis_subset _ _ _ _ _ _ _
          (fun o W ho hh => by cases hh; exact List.Subset.refl _) hst6
        obtain ⟨o4, W4, c4, hst4, hs5⟩ := stepState_vis_subset _ _ _ _ _ _ _
          (fun o W ho hh => by cases hh; exact List.Subset.refl _) hst5
        obtain ⟨o3, W3, c3, hst3, hs4⟩ := stepState_vis_subset _ _ _ _ _ _ _
          (fun o W hh hsome =>
            arrayHandle_vis_subset _ _ _ _ _ hrec hsome) hst4
        obtain ⟨o2, W2, c2, hst2, hs3⟩ := stepState_vis_subset _ _ _ _ _ _ _
          (fun o W hh hsome =>
            objectHandle_vis_subset _ _ _ _ _ hrec hsome) hst3
        obtain ⟨o1, W1, c1, hst1, hs2⟩ := stepState_vis_subset _ _ _ _ _ _ _
          (fun o W hh hsome =>
            compositionHandle_vis_subset _ _ _ _ _ hrec hsome) hst2
        obtain ⟨o0, W0, c0, hst0, hs1⟩ := stepState_vis_subset _ _ _ _ _ _ _
          (fun o W hh hsome =>
            refHandle_vis_subset _ _ _ _ _ _ hrec hsome) hst1
        have hW0 : W0 = V := by
          cases hst0
          rfl
        subst hW0
        have hchain := List.Subset.trans hs4 (List.Subset.trans hs5
          (List.Subset.trans hs6 hs7))
        exact List.Subset.trans hs1 (List.Subset.trans hs2
          (List.Subset.trans hs3 hchain))

/-- A one-schema specification with a single leaf; two sibling references
to the same leaf form a diamond-shaped (non-cyclic) reference graph. -/
def diamondWitnessSpec : Json :=
  .obj [("components", .obj [("schemas", .obj [
    ("Leaf", .obj [("type", .str "string")])])])]

/-- Claim C4: the visited-reference set invariant.  (1) A successful
conversion never removes entries: the incoming visited set is a subset of
the outgoing one, for the lifetime of the converter instance.  (2) A
reference path is added before its target is resolved, so every second
encounter of the same path — on any call sharing the instance — is flagged
with the cyclic placeholder instead of being resolved again.  (3) In
particular, in a diamond-shaped non-cyclic reference graph the second arm
referencing the same leaf is flagged cyclic while the first arm resolves. -/
theorem claim_C4_visited_set_invariant :
    (∀ n spec V j r Vf, convert n spec V j = some (r, Vf) → V ⊆ Vf) ∧
    (∀ spec p W m, Json.str p ∈ W →
      convert (m + 1) spec W (.obj [("$ref", .str p)])
        = some (.obj [("description",
            .str ("Cyclic reference detected: " ++ p)),
            ("_is_cyclic_reference", .bool true)], W)) ∧
    convert 5 diamondWitnessSpec [] (.obj [("type", .str "object"),
        ("properties", .obj [
          ("a", .obj [("$ref", .str "#/components/schemas/Leaf")]),
          ("b", .obj [("$ref", .str "#/components/schemas/Leaf")])])])
      = some (.obj [("type", .str "object"),
          ("properties", .obj [
            ("a", .obj [("type", .str "string"),
              ("description",
                .str "(from ref: #/components/schemas/Leaf)")]),
            ("b", .obj [("description",
                .str "Cyclic reference detected: #/components/schemas/Leaf"),
              ("_is_cyclic_reference", .bool true)])]),
          ("required", .arr [])],
        [Json.str "#/components/schemas/Leaf"]) :=
  ⟨fun n spec V j r Vf h => convert_vis_subset n spec V j r Vf h,
   fun spec p W m hW => convert_second_encounter spec p W m hW,
   by decide⟩

/-- Witness for C4: a concrete successful conversion extends the visited
set (conjunct 1), and a concrete second encounter returns the placeholder
with the visited set unchanged (conjunct 2). -/
theorem claim_C4_visited_set_invariant_witness :
    ([] : Visited) ⊆ [Json.str "#/components/schemas/Pet"] ∧
    convert 1 refWitnessSpec [Json.str "#/components/schemas/Pet"]
        (.obj [("$ref", .str "#/components/schemas/Pet")])
      = some (.obj [("description", .str
          "Cyclic reference detected: #/components/schemas/Pet"),
          ("_is_cyclic_reference", .bool true)],
        [Json.str "#/components/schemas/Pet"]) :=
  ⟨claim_C4_visited_set_invariant.1 2 refWitnessSpec []
      (.obj [("$ref", .str "#/components/schemas/Pet")])
      (.obj [("type", Json.str "string"),
        ("description", Json.str "(from ref: #/components/schemas/Pet)")])
      [Json.str "#/components/schemas/Pet"] (by decide),
   (claim_C4_visited_set_invariant.2.1 refWitnessSpec
      "#/components/schemas/Pet" [Json.str "#/components/schemas/Pet"] 0
      (by decide)).trans (by decide)⟩

/-- Counterexample to C9 as stated: the nullable transformation applied to
an output schema whose type is already set — here set to the scalar
`"null"` — does not yield a type list at all: `elif current_type != "null"`
makes the transformation a no-op, so the type stays the scalar string
`"null"`. -/
theorem claim_C9_counterexample :
    dget (handleNullable [("nullable", Json.bool true)]
        [("type", Json.str "null")]) "type" = some (Json.str "null") ∧
    ((dget (handleNullable [("nullable", Json.bool true)]
        [("type", Json.str "null")]) "type").getD .null).isArr = false := by
  refine ⟨?_, ?_⟩ <;> decide

/-- Claim C9 (amended): for every output schema whose `type` is set to a
scalar (non-list) value other than `"null"`, applying the nullable-true
transformation once yields the two-element type list `[t, "null"]`,
containing `"null"` exactly once, and applying it a second time leaves the
schema unchanged; for a list type not containing `"null"`, one `"null"` is
appended (again exactly once, and idempotently); the transformation is a
no-op when `nullable` is absent or falsy, or when no `type` is set. -/
theorem claim_C9_nullable_idempotent :
    (∀ σ out t, (dgetD σ "nullable" (.bool false)).truthy = true →
      dget out "type" = some t → t.isArr = false → t ≠ .str "null" →
      dget (handleNullable σ out) "type" = some (.arr [t, .str "null"]) ∧
      List.count (Json.str "null") [t, .str "null"] = 1 ∧
      handleNullable σ (handleNullable σ out) = handleNullable σ out) ∧
    (∀ σ out ts, (dgetD σ "nullable" (.bool false)).truthy = true →
      dget out "type" = some (.arr ts) → Json.str "null" ∉ ts →
      dget (handleNullable σ out) "type"
        = some (.arr (ts ++ [.str "null"])) ∧
      List.count (Json.str "null") (ts ++ [.str "null"]) = 1 ∧
      handleNullable σ (handleNullable σ out) = handleNullable σ out) ∧
    (∀ σ out, (dgetD σ "nullable" (.bool false)).truthy = false →
      handleNullable σ out = out) ∧
    (∀ σ out, dget out "type" = none → handleNullable σ out = out) := by
  refine ⟨?_, ?_, ?_, ?_⟩
  · intro σ out t hn ht hta htn
    have hone : handleNullable σ out
        = dset out "type" (.arr [t, .str "null"]) := by
      unfold handleNullable
      rw [dmem, ht]
      simp only [hn, Option.isSome_some, Bool.and_self, if_true]
      cases t <;> simp_all [Json.isArr]
    refine ⟨by rw [hone, dget_dset_self], by simp [List.count_cons, htn], ?_⟩
    rw [hone]
    unfold handleNullable
    rw [dmem, dget_dset_self]
    simp [hn, List.mem_cons]
  · intro σ out ts hn ht hmem
    have hone : handleNullable σ out
        = dset out "type" (.arr (ts ++ [.str "null"])) := by
      unfold handleNullable
      rw [dmem, ht]
      simp [hn, hmem]
    refine ⟨by rw [hone, dget_dset_self], ?_, ?_⟩
    · rw [List.count_append]
      simp [List.count_eq_zero.mpr hmem]
    · rw [hone]
      unfold handleNullable
      rw [dmem, dget_dset_self]
      simp [hn]
  · intro σ out hn
    unfold handleNullable
    simp [hn]
  · intro σ out ht
    unfold handleNullable
    rw [dmem, ht]
    simp

/-- Witness for the amended C9: promoting a scalar `string` type yields
`["string", "null"]` and a second application changes nothing. -/
theorem claim_C9_nullable_idempotent_witness :
    dget (handleNullable [("nullable", Json.bool true)]
        [("type", Json.str "string")]) "type"
      = some (Json.arr [Json.str "string", Json.str "null"]) ∧
    handleNullable [("nullable", Json.bool true)]
        (handleNullable [("nullable", Json.bool true)]
          [("type", Json.str "string")])
      = handleNullable [("nullable", Json.bool true)]
          [("type", Json.str "string")] :=
  ⟨(claim_C9_nullable_idempotent.1 [("nullable", Json.bool true)]
      [("type", Json.str "string")] (Json.str "string") (by decide)
      (by decide) (by decide) (by decide)).1,
   (claim_C9_nullable_idempotent.1 [("nullable", Json.bool true)]
      [("type", Json.str "string")] (Json.str "string") (by decide)
      (by decide) (by decide) (by decide)).2.2⟩

/-! ## The operation mapper (`openapi_to_mcp/mapping/mapper.py`) -/

/-- Is this value hashable in Python (usable as a `set` element or `dict`
key)?  Parsed JSON lists and dicts are not. -/
def pyHashable : Json → Bool
  | .arr _ => false
  | .obj _ => false
  | _ => true

/-- Deduplication keeping first occurrences (`set(...)` up to the
unspecified iteration order, which the subsequent sort normalizes). -/
def dedupJson : List Json → List Json → List Json
  | _, [] => []
  | seen, x :: xs =>
    if x ∈ seen then dedupJson seen xs
    else x :: dedupJson (x :: seen) xs

/-- Insertion into a sorted list for insertion sort. -/
def sortedInsert (le : Json → Json → Bool) (x : Json) :
    List Json → List Json
  | [] => [x]
  | y :: ys => if le x y then x :: y :: ys else y :: sortedInsert le x ys

/-- Insertion sort with a boolean `≤`. -/
def insertionSort (le : Json → Json → Bool) : List Json → List Json
  | [] => []
  | x :: xs => sortedInsert le x (insertionSort le xs)

/-- `≤` on string values (Python compares strings by code point). -/
def strLeJson : Json → Json → Bool
  | .str a, .str b => a ≤ b
  | _, _ => true

/-- The numeric sort key Python uses when comparing numbers and booleans
(`True == 1`, `False == 0`). -/
def numKey : Json → Int
  | .num n => n
  | .bool b => if b then 1 else 0
  | _ => 0

/-- `≤` on numeric values. -/
def numLeJson (a b : Json) : Bool :=
  numKey a ≤ numKey b

/-- `sorted(set(xs))`: `error` models the `TypeError` raised either by
`set()` on an unhashable element or by `sorted` on elements that do not
support mutual `<` (the homogeneous string and numeric cases are the ones
the mapper produces; Python's exotic comparable mixtures, such as nested
lists, are out of scope of every statement below). -/
def pySortedSet (xs : List Json) : Except Unit (List Json) :=
  if xs.any (fun v => !pyHashable v) then .error ()
  else
    match dedupJson [] xs with
    | [] => .ok []
    | [x] => .ok [x]
    | s =>
      if s.all Json.isStr then .ok (insertionSort strLeJson s)
      else if s.all (fun v => v.isNum || v.isBool) then
        .ok (insertionSort numLeJson s)
      else .error ()

/-- `Mapper._resolve_ref`: constructs a fresh `ReferenceHandler` (whose
visited set is never consulted by `resolve_ref`) and resolves; a non-string
reference raises `AttributeError` (`error`). -/
def mapperResolveRef (spec refv : Json) : Except Unit Json :=
  match refv with
  | .str s => .ok (.obj (resolveRef spec s))
  | _ => .error ()

/-- `input_schema["properties"][k] = v` (the mapper always keeps an object
under `properties`). -/
def schemaAddProp (s : Fields) (k : String) (v : Json) : Fields :=
  dset s "properties" (.obj (dset (dgetD s "properties" (.obj [])).fieldsOf k v))

/-- `input_schema["required"].append(v)` (the mapper always keeps a list
under `required` at this point). -/
def schemaAddRequired (s : Fields) (v : Json) : Fields :=
  match dget s "required" with
  | some (.arr xs) => dset s "required" (.arr (xs ++ [v]))
  | _ => s

/-- Dict keys are strings in the embedding; a (truthy) non-string parameter
name inserted by the Python code is keyed by its rendering.  (Hashable
non-string names are a degenerate corner no statement below quantifies
over; unhashable ones raise and are modelled in `processParamsGo`.) -/
def pyKey : Json → String
  | .str s => s
  | v => pyStr v

/-- The loop of `Mapper._process_parameters`: skips non-dict entries,
resolves `$ref` entries (a non-string `$ref` raises out of the operation),
skips entries without a truthy `name` or with an `in` outside
path/query/header, converts each parameter schema with a freshly
constructed converter, copies the parameter `description` over the
converted schema, inserts it under `properties`, appends to `required`
when marked required, and accumulates `\x7bname, in, required\x7d`
provenance records. -/
def processParamsGo (fuel : Nat) (spec : Json) :
    List Json → List Json → Fields → Option (Except Unit (List Json × Fields))
  | [], acc, s => some (.ok (acc, s))
  | pm :: rest, acc, s =>
    match pm with
    | .obj pf0 =>
      let step : Except Unit (Option Fields) :=
        if dmem pf0 "$ref" then
          match mapperResolveRef spec (dgetD pf0 "$ref" .null) with
          | .error e => .error e
          | .ok (.obj pf) => .ok (some pf)
          | .ok _ => .ok none
        else .ok (some pf0)
      match step with
      | .error e => some (.error e)
      | .ok none => processParamsGo fuel spec rest acc s
      | .ok (some pf) =>
        let nameV := dgetD pf "name" .null
        let inV := dgetD pf "in" .null
        if !nameV.truthy ||
            !(inV = .str "path" || inV = .str "query" || inV = .str "header")
        then processParamsGo fuel spec rest acc s
        else
          match convert fuel spec [] (dgetD pf "schema" (.obj [])) with
          | none => none
          | some (conv, _) =>
            let conv :=
              match dget pf "description" with
              | some d => Json.obj (dset conv.fieldsOf "description" d)
              | none => conv
            if !pyHashable nameV then some (.error ())
            else
              let s1 := schemaAddProp s (pyKey nameV) conv
              let s2 :=
                if (dgetD pf "required" (.bool false)).truthy then
                  schemaAddRequired s1 nameV
                else s1
              processParamsGo fuel spec rest
                (acc ++ [Json.obj [("name", nameV), ("in", inV),
                  ("required", dgetD pf "required" (.bool false))]]) s2
    | _ => processParamsGo fuel spec rest acc s

/-- The content-type selection of `Mapper._process_request_body`: prefer an
`application/json` entry whose value is a dict; otherwise fall back to the
first declared content type, provided its value is a dict. -/
def selectContent (cf : Fields) : Option (String × Option Json) :=
  match dget cf "application/json" with
  | some (.obj mj) => some ("application/json", dget mj "schema")
  | _ =>
    match cf with
    | [] => none
    | (t, v) :: _ =>
      match v with
      | .obj mv => some (t, dget mv "schema")
      | _ => none

/-- The selected content type together with its schema, under the success
condition of `Mapper._process_request_body`:
`if primary_content_type and isinstance(body_schema_openapi, dict)`.
The truthiness test on the selected type rejects both an absent selection
and an empty-string content type (a falsy fallback key), and the
`isinstance` test requires the schema to be a dict. -/
def chosenBodySchema (cf : Fields) : Option (String × Fields) :=
  match selectContent cf with
  | some (ct, some (.obj bs)) => if ct = "" then none else some (ct, bs)
  | _ => none

/-- `Mapper._process_request_body`: returns the updated input schema and
the processed request-body provenance (`null` when not applicable). -/
def processRequestBody (fuel : Nat) (spec : Json) (rbv : Json) (s : Fields) :
    Option (Except Unit (Fields × Json)) :=
  match rbv with
  | .obj rf0 =>
    let step : Except Unit (Option Fields) :=
      if dmem rf0 "$ref" then
        match mapperResolveRef spec (dgetD rf0 "$ref" .null) with
        | .error e => .error e
        | .ok (.obj rf) => .ok (some rf)
        | .ok _ => .ok none
      else .ok (some rf0)
    match step with
    | .error e => some (.error e)
    | .ok none => some (.ok (s, .null))
    | .ok (some rf) =>
      match dgetD rf "content" (.obj []) with
      | .obj cf =>
        (match chosenBodySchema cf with
         | some (ct, bs) =>
           match convert fuel spec [] (.obj bs) with
           | none => none
           | some (conv, _) =>
             let s1 := schemaAddProp s "requestBody" conv
             let s2 :=
               if (dgetD rf "required" (.bool false)).truthy then
                 schemaAddRequired s1 (.str "requestBody")
               else s1
             some (.ok (s2, .obj [("required", dgetD rf "required" (.bool false)),
               ("content_type", .str ct)]))
         | none =>
           if (dgetD rf "required" (.bool false)).truthy then
             some (.ok (s, .obj [("required", .bool true),
               ("content_type", .null)]))
           else some (.ok (s, .null)))
      | _ => some (.ok (s, .null))
  | _ => some (.ok (s, .null))

/-- `Mapper._map_operation_to_tool`. -/
def mapOperation (fuel : Nat) (spec : Json) (method path : String)
    (op : Fields) : Option (Except Unit Json) :=
  let oid := dgetD op "operationId" .null
  let nameV := if oid.truthy then oid else .str (generateToolName method path)
  let sumV := dgetD op "summary" .null
  let descV :=
    if sumV.truthy then sumV
    else dgetD op "description"
      (.str (asciiUpper method ++ " operation for " ++ path))
  let params : List Json :=
    match dget op "parameters" with
    | some (.arr l) => l
    | _ => []
  match processParamsGo fuel spec params []
      [("type", .str "object"), ("properties", .obj []),
       ("required", .arr [])] with
  | none => none
  | some (.error e) => some (.error e)
  | some (.ok (procP, input1)) =>
    match processRequestBody fuel spec (dgetD op "requestBody" .null) input1 with
    | none => none
    | some (.error e) => some (.error e)
    | some (.ok (input2, procB)) =>
      match dget input2 "required" with
      | some (.arr xs) =>
        (match pySortedSet xs with
         | .error e => some (.error e)
         | .ok sortedXs =>
           some (.ok (.obj [("name", nameV), ("description", descV),
             ("inputSchema", .obj (dset input2 "required" (.arr sortedXs))),
             ("_original_method", .str (asciiUpper method)),
             ("_original_path", .str path),
             ("_original_parameters", .arr procP),
             ("_original_request_body", procB)])))
      | _ =>
        some (.ok (.obj [("name", nameV), ("description", descV),
          ("inputSchema", .obj input2),
          ("_original_method", .str (asciiUpper method)),
          ("_original_path", .str path),
          ("_original_parameters", .arr procP),
          ("_original_request_body", procB)]))

/-- The eight standard HTTP verbs accepted by `map_tools`. -/
def httpVerbs : List String :=
  ["get", "post", "put", "delete", "patch", "options", "head", "trace"]

/-- The inner loop of `Mapper.map_tools` over one path item's methods:
non-verb keys and non-dict operations are skipped; a failing operation is
caught and skipped (partial success). -/
def mapMethodsGo (fuel : Nat) (spec : Json) (path : String) :
    Fields → List Json → Option (List Json)
  | [], acc => some acc
  | (method, op) :: rest, acc =>
    if asciiLower method ∈ httpVerbs then
      match op with
      | .obj opf =>
        (match mapOperation fuel spec method path opf with
         | none => none
         | some (.ok t) => mapMethodsGo fuel spec path rest (acc ++ [t])
         | some (.error _) => mapMethodsGo fuel spec path rest acc)
      | _ => mapMethodsGo fuel spec path rest acc
    else mapMethodsGo fuel spec path rest acc

/-- The outer loop of `Mapper.map_tools` over path items: non-dict path
items are skipped. -/
def mapPathsGo (fuel : Nat) (spec : Json) :
    Fields → List Json → Option (List Json)
  | [], acc => some acc
  | (path, pitem) :: rest, acc =>
    match pitem with
    | .obj items =>
      (match mapMethodsGo fuel spec path items acc with
       | none => none
       | some acc2 => mapPathsGo fuel spec rest acc2)
    | _ => mapPathsGo fuel spec rest acc

/-- The `Mapper` instance state: the spec given to `__init__` (never
mutated) and the `mcp_tools` accumulator. -/
structure MapperState where
  spec : Json
  tools : List Json
deriving Repr

/-- `Mapper.map_tools`: resets the accumulator, validates the `paths`
value, iterates, and returns the tool list together with the instance
state it leaves behind.  The outer `error` is the fatal `MappingError`. -/
def mapToolsSt (fuel : Nat) (st : MapperState) :
    Option (Except Unit (List Json × MapperState)) :=
  match jgetD st.spec "paths" (.obj []) with
  | .obj ps =>
    (match mapPathsGo fuel st.spec ps [] with
     | none => none
     | some tools => some (.ok (tools, ⟨st.spec, tools⟩)))
  | _ => some (.error ())

/-- The §8 partial-failure scenario: one well-formed operation among a
non-map path item, an invalid method key, a non-map operation, and an
operation with non-list parameters. -/
def partialFailureSpec : Json :=
  .obj [("paths", .obj [
    ("/good", .obj [("get", .obj [("summary", .str "Good")])]),
    ("/bad1", .num 5),
    ("/bad2", .obj [("fetch", .obj [])]),
    ("/bad3", .obj [("get", .num 7)]),
    ("/bad4", .obj [("get", .obj [("parameters", .num 9)])])])]

/-- The tools `map_tools` derives from `partialFailureSpec`: the well-formed
operation, plus the non-list-parameters operation degraded to an empty
parameter list. -/
def partialFailureTools : List Json :=
  [.obj [("name", .str "get_good"), ("description", .str "Good"),
    ("inputSchema", .obj [("type", .str "object"),
      ("properties", .obj []), ("required", .arr [])]),
    ("_original_method", .str "GET"), ("_original_path", .str "/good"),
    ("_original_parameters", .arr []), ("_original_request_body", .null)],
   .obj [("name", .str "get_bad4"),
    ("description", .str "GET operation for /bad4"),
    ("inputSchema", .obj [("type", .str "object"),
      ("properties", .obj []), ("required", .arr [])]),
    ("_original_method", .str "GET"), ("_original_path", .str "/bad4"),
    ("_original_parameters", .arr []), ("_original_request_body", .null)]]

/-- Claim C5: `map_tools` raises a mapping error if and only if the spec's
`paths` value is present and not a map; otherwise it returns a (possibly
smaller or degraded) tool list: non-map path items, non-HTTP-verb method
keys and non-map operations are skipped, an exception while mapping one
operation is caught and that operation skipped, and the concrete
partial-failure scenario yields exactly the tools derivable from its
well-formed entries. -/
theorem claim_C5_error_semantics :
    (∀ fuel sf ts r, mapToolsSt fuel ⟨.obj sf, ts⟩ = some r →
      ((∃ e, r = .error e) ↔
        ∃ v, dget sf "paths" = some v ∧ v.isObj = false)) ∧
    (∀ fuel spec path pitem rest acc, pitem.isObj = false →
      mapPathsGo fuel spec ((path, pitem) :: rest) acc
        = mapPathsGo fuel spec rest acc) ∧
    (∀ fuel spec path method op rest acc,
      asciiLower method ∉ httpVerbs →
      mapMethodsGo fuel spec path ((method, op) :: rest) acc
        = mapMethodsGo fuel spec path rest acc) ∧
    (∀ fuel spec path method op rest acc, op.isObj = false →
      mapMethodsGo fuel spec path ((method, op) :: rest) acc
        = mapMethodsGo fuel spec path rest acc) ∧
    (∀ fuel spec path method opf rest acc e,
      mapOperation fuel spec method path opf = some (.error e) →
      mapMethodsGo fuel spec path ((method, .obj opf) :: rest) acc
        = mapMethodsGo fuel spec path rest acc) ∧
    mapToolsSt 3 ⟨partialFailureSpec, []⟩
      = some (.ok (partialFailureTools,
          ⟨partialFailureSpec, partialFailureTools⟩)) := by
  refine ⟨?_, ?_, ?_, ?_, ?_, by rfl⟩
  · intro fuel sf ts r h
    simp only [mapToolsSt, jgetD, dgetD, Json.fieldsOf] at h
    split at h
    · rename_i ps heqm
      split at h
      · exact absurd h (by simp)
      · rename_i tools heq
        cases h
        constructor
        · rintro ⟨e, he⟩
          exact absurd he (by simp)
        · rintro ⟨v, hv2, hno⟩
          rw [hv2] at heqm
          simp only [Option.getD] at heqm
          subst heqm
          exact absurd hno (by simp [Json.isObj])
    · rename_i hne
      cases h
      constructor
      · intro _
        cases hv : dget sf "paths" with
        | none =>
          have hd : (dget sf "paths").getD (.obj []) = .obj [] := by
            rw [hv]
            rfl
          exact (hne [] hd).elim
        | some v =>
          refine ⟨v, rfl, ?_⟩
          cases v with
          | obj f =>
            have hd : (dget sf "paths").getD (.obj []) = .obj f := by
              rw [hv]
              rfl
            exact (hne f hd).elim
          | null => rfl
          | bool b => rfl
          | num n => rfl
          | str s => rfl
          | arr l => rfl
      · intro _
        exact ⟨(), rfl⟩
  · intro fuel spec path pitem rest acc hno
    cases pitem <;> simp_all [mapPathsGo, Json.isObj]
  · intro fuel spec path method op rest acc hverb
    simp [mapMethodsGo, hverb]
  · intro fuel spec path method op rest acc hno
    by_cases hv : asciiLower method ∈ httpVerbs <;>
      cases op <;> simp_all [mapMethodsGo, Json.isObj]
  · intro fuel spec path method opf rest acc e herr
    by_cases hv : asciiLower method ∈ httpVerbs <;>
      simp [mapMethodsGo, hv, herr]

/-- Witness for C5: a concrete non-map path item (`5`) is skipped by the
path loop, which then returns the empty tool list. -/
theorem claim_C5_error_semantics_witness :
    (Json.num 5).isObj = false ∧
    mapPathsGo 1 (Json.obj []) [("/x", Json.num 5)] [] = some [] :=
  ⟨by decide,
   (claim_C5_error_semantics.2.1 1 (Json.obj []) "/x" (Json.num 5) [] []
      (by decide)).trans (by rfl)⟩

/-- Claim C10 (implicit): calling `map_tools` twice in succession on the
same `Mapper` instance over an unchanged spec returns equal tool lists —
the accumulator is overwritten at the start of each call, and every
schema conversion and mapper-level `$ref` resolution uses freshly
constructed converter/handler state (visited set `[]` in
`processParamsGo`/`processRequestBody`, and a fresh handler in
`mapperResolveRef`), so no state carries over between calls. -/
theorem claim_C10_map_tools_repeatable :
    ∀ fuel spec ts l st', mapToolsSt fuel ⟨spec, ts⟩ = some (.ok (l, st')) →
      mapToolsSt fuel st' = some (.ok (l, st')) := by
  intro fuel spec ts l st' h
  have hst : st' = ⟨spec, l⟩ := by
    simp only [mapToolsSt] at h
    split at h
    · split at h
      · exact absurd h (by simp)
      · rename_i tools heq
        cases h
        rfl
    · cases h
  subst hst
  have hindep : mapToolsSt fuel ⟨spec, l⟩ = mapToolsSt fuel ⟨spec, ts⟩ := rfl
  rw [hindep]
  exact h

/-- Witness for C10: running `map_tools` a second time on the state left by
a first run over a concrete one-operation spec returns the same tool
list. -/
theorem claim_C10_map_tools_repeatable_witness :
    mapToolsSt 3 ⟨partialFailureSpec, partialFailureTools⟩
      = some (.ok (partialFailureTools,
          ⟨partialFailureSpec, partialFailureTools⟩)) :=
  claim_C10_map_tools_repeatable 3 partialFailureSpec [] partialFailureTools
    ⟨partialFailureSpec, partialFailureTools⟩ (by rfl)

/-- Counterexample to C6 as stated: a request body whose content map
contains both `application/json` and another media type, yet whose chosen
`content_type` (recorded in the provenance) is `text/plain` — because the
`application/json` entry's value is not a map, the `isinstance` guard
rejects it and the fallback picks the first declared type. -/
theorem claim_C6_counterexample :
    processRequestBody 2 (.obj []) (.obj [("content", .obj [
        ("text/plain", .obj [("schema", .obj [])]),
        ("application/json", .num 7)])])
      [("type", .str "object"), ("properties", .obj []),
       ("required", .arr [])]
      = some (.ok ([("type", .str "object"),
          ("properties", .obj [("requestBody", .obj [])]),
          ("required", .arr [])],
        .obj [("required", .bool false),
          ("content_type", .str "text/plain")])) := by
  decide

/-- Claim C6 (amended): the content-type selection prefers
`application/json` whenever that entry's value is a map — in that case the
selected content type is `application/json`; when no such map-valued
`application/json` entry exists, the first declared content type is the
fallback candidate, selected when its value is a map.  The success branch
records the selected type in the processed request-body provenance exactly
when that type is truthy (a non-empty string, which `application/json`
always is) and carries a map-valued schema; an empty-string fallback type
is rejected by the truthiness guard, so the selection never succeeds with
it — on a required body the program then records
`\x7brequired: true, content_type: null\x7d` and leaves the input schema
untouched. -/
theorem claim_C6_content_type_preference :
    (∀ cf mj, dget cf "application/json" = some (.obj mj) →
      selectContent cf = some ("application/json", dget mj "schema")) ∧
    (∀ cf t v rest, (∀ mj, dget cf "application/json" ≠ some (.obj mj)) →
      cf = (t, v) :: rest → v.isObj = true →
      ∃ mv, v = .obj mv ∧ selectContent cf = some (t, dget mv "schema")) ∧
    (∀ fuel spec rf s cf ct bs conv W,
      dmem rf "$ref" = false →
      dgetD rf "content" (.obj []) = .obj cf →
      chosenBodySchema cf = some (ct, bs) →
      convert fuel spec [] (.obj bs) = some (conv, W) →
      ∃ s2, processRequestBody fuel spec (.obj rf) s
        = some (.ok (s2,
            .obj [("required", dgetD rf "required" (.bool false)),
              ("content_type", .str ct)]))) ∧
    (∀ cf bs, selectContent cf = some ("", bs) →
      chosenBodySchema cf = none) ∧
    processRequestBody 2 (.obj [])
        (.obj [("required", .bool true),
          ("content", .obj [("", .obj [("schema", .obj [])])])])
        [("type", .str "object"), ("properties", .obj []),
         ("required", .arr [])]
      = some (.ok ([("type", .str "object"), ("properties", .obj []),
          ("required", .arr [])],
        .obj [("required", .bool true), ("content_type", .null)])) := by
  refine ⟨?_, ?_, ?_, ?_, by decide⟩
  · intro cf mj hj
    simp [selectContent, hj]
  · intro cf t v rest hnot hcf hobj
    subst hcf
    cases v with
    | obj mv =>
      refine ⟨mv, rfl, ?_⟩
      cases hj : dget ((t, Json.obj mv) :: rest) "application/json" with
      | none => simp [selectContent, hj]
      | some w =>
        cases w with
        | obj mj => exact absurd hj (hnot mj)
        | null => simp [selectContent, hj]
        | bool b => simp [selectContent, hj]
        | num n => simp [selectContent, hj]
        | str s => simp [selectContent, hj]
        | arr l => simp [selectContent, hj]
    | null => simp [Json.isObj] at hobj
    | bool b => simp [Json.isObj] at hobj
    | num n => simp [Json.isObj] at hobj
    | str s => simp [Json.isObj] at hobj
    | arr l => simp [Json.isObj] at hobj
  · intro fuel spec rf s cf ct bs conv W href hcontent hcbs hconv
    refine ⟨if (dgetD rf "required" (.bool false)).truthy then
        schemaAddRequired (schemaAddProp s "requestBody" conv)
          (.str "requestBody")
      else schemaAddProp s "requestBody" conv, ?_⟩
    simp [processRequestBody, href, hcontent, hcbs, hconv]
  · intro cf bs h
    cases bs with
    | none => simp [chosenBodySchema, h]
    | some v => cases v <;> simp [chosenBodySchema, h]

/-- Witness for the amended C6: a concrete content map with a well-formed
`application/json` entry and a `text/plain` alternative selects
`application/json`. -/
theorem claim_C6_content_type_preference_witness :
    selectContent [("text/plain", .obj []),
        ("application/json", .obj [("schema", .obj [("type", .str "string")])])]
      = some ("application/json", some (.obj [("type", .str "string")])) :=
  (claim_C6_content_type_preference.1
    [("text/plain", .obj []),
     ("application/json", .obj [("schema", .obj [("type", .str "string")])])]
    [("schema", .obj [("type", .str "string")])] (by decide)).trans (by decide)

/-- Counterexample to C1 as stated: an operation whose request body is
required but has no usable schema under `content`.  The produced tool's
provenance is `\x7brequired: true, content_type: null\x7d` and its
`inputSchema.properties` has no `requestBody` entry — but, contrary to the
claim, the declared `required` list is `[]`: it does *not* contain
`requestBody`, because the `required.append("requestBody")` only runs in
the branch where a usable schema was found. -/
theorem claim_C1_counterexample :
    mapOperation 2 (.obj []) "post" "/x"
        [("requestBody", .obj [("required", .bool true),
          ("content", .obj [])])]
      = some (.ok (.obj [("name", .str "post_x"),
          ("description", .str "POST operation for /x"),
          ("inputSchema", .obj [("type", .str "object"),
            ("properties", .obj []), ("required", .arr [])]),
          ("_original_method", .str "POST"),
          ("_original_path", .str "/x"),
          ("_original_parameters", .arr []),
          ("_original_request_body", .obj [("required", .bool true),
            ("content_type", .null)])])) ∧
    (([] : List Json).contains (Json.str "requestBody")) = false := by
  refine ⟨by decide, by decide⟩

/-- Claim C1 (amended): for every request body marked required for which no
usable schema is found under a map-valued `content` — no selection with a
truthy (non-empty) content type carrying a map-valued schema, which also
covers an empty-string fallback content type rejected by the
`if primary_content_type` truthiness guard — the processed provenance
records `\x7brequired: true, content_type: null\x7d` and the input schema
is returned entirely unchanged — so `properties` gains no `requestBody`
entry and, contrary to the original claim, `required` does *not* gain a
`requestBody` entry either. -/
theorem claim_C1_required_body_no_schema :
    ∀ fuel spec rf s cf,
      dmem rf "$ref" = false →
      dgetD rf "content" (.obj []) = .obj cf →
      chosenBodySchema cf = none →
      (dgetD rf "required" (.bool false)).truthy = true →
      processRequestBody fuel spec (.obj rf) s
        = some (.ok (s, .obj [("required", .bool true),
            ("content_type", .null)])) := by
  intro fuel spec rf s cf href hcontent hcbs hreq
  simp [processRequestBody, href, hcontent, hcbs, hreq]

/-- Witness for the amended C1: a concrete required body whose only
content entry is keyed by the empty string (a falsy content type with a
map-valued schema) — the truthiness guard rejects the selection, the input
schema is left untouched and the null content type is recorded. -/
theorem claim_C1_required_body_no_schema_witness :
    processRequestBody 1 (.obj [])
        (.obj [("required", .bool true),
          ("content", .obj [("", .obj [("schema", .obj [])])])])
        [("type", .str "object"), ("properties", .obj []),
         ("required", .arr [])]
      = some (.ok ([("type", .str "object"), ("properties", .obj []),
          ("required", .arr [])],
        .obj [("required", .bool true), ("content_type", .null)])) :=
  claim_C1_required_body_no_schema 1 (.obj [])
    [("required", .bool true),
     ("content", .obj [("", .obj [("schema", .obj [])])])]
    [("type", .str "object"), ("properties", .obj []),
     ("required", .arr [])]
    [("", .obj [("schema", .obj [])])]
    (by decide) (by decide) (by decide) (by decide)

/-- Claim C7: `generate_tool_name` is a deterministic pure function of
`(method, path)` (it is a total Lean function of exactly those two
arguments), and it satisfies the five documented examples:
`("GET", "/") = "get_root"`, `("POST", "/users") = "post_users"`,
`("GET", "/users/\x7buserId\x7d") = "get_users_by_userId"`,
`("GET", "/a-@!#$-b") = "get_a_b"`, and
`("PoSt", "/complex/path") = "post_complex_path"`. -/
theorem claim_C7_generateToolName_examples :
    generateToolName "GET" "/" = "get_root" ∧
    generateToolName "POST" "/users" = "post_users" ∧
    generateToolName "GET" "/users/\x7buserId\x7d" = "get_users_by_userId" ∧
    generateToolName "GET" "/a-@!#$-b" = "get_a_b" ∧
    generateToolName "PoSt" "/complex/path" = "post_complex_path" := by
  refine ⟨?_, ?_, ?_, ?_, ?_⟩ <;> decide

end OpenApiToMcp
